import Mathlib

/-!
Verification of the offline-first sales deal tracker's synchronization
subsystem.  The definitions below are a shallow embedding of the TypeScript
source: the client's Dexie/IndexedDB tables are lists of records keyed by
`id`, timestamps are naturals, monetary values are integers and sentiment
scores are rationals.  Each definition is named after the source function it
embeds (frontend `lib/db/deals.ts`, `lib/db/notes.ts`, `lib/api/sync.ts`,
`lib/api/sentiment.ts`; backend `api/sync.ts`, `api/sentiment.ts`).
-/

namespace SalesSync

/-- Deal status, from `lib/db/types.ts` (`'open' | 'won' | 'lost'`). -/
inductive DealStatus
  | open_
  | won
  | lost
deriving DecidableEq, Repr

/-- Pipeline stage, from `lib/db/types.ts`. -/
inductive DealStage
  | prospect
  | qualified
  | proposal
  | negotiation
  | closing
deriving DecidableEq, Repr

/-- Sentiment label, from `lib/db/types.ts` and the sentiment endpoints. -/
inductive SentimentLabel
  | positive
  | neutral
  | negative
deriving DecidableEq, Repr

/-- Client-side `Deal` record, from `lib/db/types.ts`.  `synced = false` is
the dirty flag ("has local changes not yet acknowledged by the server"). -/
structure Deal where
  id : String
  name : String
  value : Int
  status : DealStatus
  loss_reason : Option String
  created_at : Nat
  updated_at : Nat
  synced : Bool
  archived : Bool
  expected_close_date : Option Nat
  customer_name : Option String
  stage : DealStage
deriving DecidableEq, Repr

/-- Client-side `Note` record, from `lib/db/types.ts`. -/
structure Note where
  id : String
  deal_id : String
  content : String
  sentiment_score : Option ℚ
  sentiment_label : Option SentimentLabel
  created_at : Nat
  synced : Bool
deriving DecidableEq, Repr

/-- The Dexie `deals` table, keyed by `id`. -/
abbrev DealTable := List Deal

/-- The Dexie `notes` table, keyed by `id`. -/
abbrev NoteTable := List Note

/-- `db.deals.get(id)`: primary-key lookup. -/
def getDeal : DealTable → String → Option Deal
  | [], _ => none
  | d :: ds, i => if d.id = i then some d else getDeal ds i

/-- `db.notes.get(id)`: primary-key lookup. -/
def getNote : NoteTable → String → Option Note
  | [], _ => none
  | n :: ns, i => if n.id = i then some n else getNote ns i

/-- `db.deals.put(record)`: keyed insert-or-replace.  On a table whose ids
are unique this replaces the record with the same id, or appends. -/
def putDeal : DealTable → Deal → DealTable
  | [], d => [d]
  | x :: xs, d => if x.id = d.id then d :: xs else x :: putDeal xs d

/-- `db.notes.put(record)`: keyed insert-or-replace. -/
def putNote : NoteTable → Note → NoteTable
  | [], n => [n]
  | x :: xs, n => if x.id = n.id then n :: xs else x :: putNote xs n

/-- `getUnsyncedDeals()` from `lib/db/deals.ts`:
`db.deals.where('synced').equals(0).toArray()`. -/
def getUnsyncedDeals (tbl : DealTable) : List Deal :=
  tbl.filter fun d => !d.synced

/-- `getUnsyncedNotes()` from `lib/db/notes.ts`. -/
def getUnsyncedNotes (tbl : NoteTable) : List Note :=
  tbl.filter fun n => !n.synced

/-- `markDealsSynced(ids)` from `lib/db/deals.ts`:
`db.deals.where('id').anyOf(ids).modify({ synced: true })`. -/
def markDealsSynced (tbl : DealTable) (ids : List String) : DealTable :=
  tbl.map fun d => if ids.contains d.id then { d with synced := true } else d

/-- `markNotesSynced(ids)` from `lib/db/notes.ts`. -/
def markNotesSynced (tbl : NoteTable) (ids : List String) : NoteTable :=
  tbl.map fun n => if ids.contains n.id then { n with synced := true } else n

/-- A `Partial<Deal>` patch as accepted by `updateDeal` in `lib/db/deals.ts`;
`none` means the field is absent from the patch object. -/
structure DealPatch where
  name : Option String := none
  value : Option Int := none
  status : Option DealStatus := none
  loss_reason : Option (Option String) := none
  archived : Option Bool := none
  expected_close_date : Option (Option Nat) := none
  customer_name : Option (Option String) := none
  stage : Option DealStage := none
deriving DecidableEq, Repr

/-- Spreading a partial patch over a record (`{ ...updates }`). -/
def applyPatch (d : Deal) (p : DealPatch) : Deal :=
  { d with
    name := p.name.getD d.name
    value := p.value.getD d.value
    status := p.status.getD d.status
    loss_reason := p.loss_reason.getD d.loss_reason
    archived := p.archived.getD d.archived
    expected_close_date := p.expected_close_date.getD d.expected_close_date
    customer_name := p.customer_name.getD d.customer_name
    stage := p.stage.getD d.stage }

/-- The record-level effect of `updateDeal` from `lib/db/deals.ts`: spread
the provided fields, then force `updated_at = now` and `synced = false`. -/
def updateDealRecord (d : Deal) (p : DealPatch) (now : Nat) : Deal :=
  { applyPatch d p with updated_at := now, synced := false }

/-- `updateDeal(id, updates)` from `lib/db/deals.ts`, i.e. Dexie's
`db.deals.update(id, {...updates, updated_at: now, synced: false})`.
Dexie's `Table.update` resolves with the number of records modified;
when no record has the given key it is a no-op resolving with `0`
(it does not reject). -/
def updateDeal (tbl : DealTable) (i : String) (p : DealPatch) (now : Nat) :
    DealTable × Nat :=
  match getDeal tbl i with
  | none => (tbl, 0)
  | some _ =>
    (tbl.map fun d => if d.id = i then updateDealRecord d p now else d, 1)

/-- `addDeal(options)` from `lib/db/deals.ts`: a fresh record with
`status: 'open'`, `loss_reason: null`, `synced: false`,
`archived: false`, and stage defaulting to `'prospect'`. -/
def addDeal (i nm : String) (v : Int) (customer : Option String)
    (closeDate : Option Nat) (st : Option DealStage) (now : Nat) : Deal :=
  { id := i
    name := nm
    value := v
    status := .open_
    loss_reason := none
    created_at := now
    updated_at := now
    synced := false
    archived := false
    expected_close_date := closeDate
    customer_name := customer
    stage := st.getD .prospect }

/-- The patch sent by `handleMarkWon` (`DealDetail.tsx`, `DealList.tsx`):
`updateDeal(id, { status: 'won' })`.  Every UI path offering "Mark Won"
(detail buttons, action menu, swipe) is rendered or enabled only while
`deal.status === 'open'`. -/
def markWonPatch : DealPatch := { status := some .won }

/-- The patch sent by `handleSelectReason` (`LossReasonModal.tsx`):
`updateDeal(id, { status: 'lost', loss_reason: reason })`. -/
def markLostPatch (reason : String) : DealPatch :=
  { status := some .lost, loss_reason := some (some reason) }

/-- The patch sent by `archiveDeal` : `updateDeal(id, { archived: true })`. -/
def archivePatch : DealPatch := { archived := some true }

/-- The patch sent by `restoreDeal`: `updateDeal(id, { archived: false })`. -/
def restorePatch : DealPatch := { archived := some false }

/-- The patch sent by `handleStageChange` (`DealDetail.tsx`):
`updateDeal(id, { stage })`. -/
def stagePatch (s : DealStage) : DealPatch := { stage := some s }

/-- The patch sent by `EditDealModal.tsx`'s `handleSubmit`: name, value,
customer name, expected close date and stage. -/
def editPatch (nm : String) (v : Int) (customer : Option String)
    (closeDate : Option Nat) (s : DealStage) : DealPatch :=
  { name := some nm
    value := some v
    customer_name := some customer
    expected_close_date := some closeDate
    stage := some s }

/-- The Deal invariant from the specification:
`loss_reason` non-null iff `status = lost`. -/
def dealInvariant (d : Deal) : Prop :=
  d.loss_reason.isSome = true ↔ d.status = DealStatus.lost

instance (d : Deal) : Decidable (dealInvariant d) :=
  decidable_of_iff (d.loss_reason.isSome = true ↔ d.status = DealStatus.lost)
    Iff.rfl

/-- The whole persisted client state: the two Dexie tables plus the
`lastSyncTime` watermark held in `localStorage`. -/
structure ClientState where
  deals : DealTable
  notes : NoteTable
  lastSyncTime : Option Nat
deriving DecidableEq, Repr

/-- The body `performSync` transmits (`lib/api/sync.ts`):
`{ lastSync, changes: { deals: unsyncedDeals, notes: unsyncedNotes } }`. -/
structure SyncRequest where
  lastSync : Option Nat
  dealChanges : List Deal
  noteChanges : List Note
deriving DecidableEq, Repr

/-- The body the server answers with: `{ serverTime, updates }`. -/
structure SyncResponse where
  serverTime : Nat
  dealUpdates : List Deal
  noteUpdates : List Note
deriving DecidableEq, Repr

/-- The request constructed at the start of `performSync`
(`lib/api/sync.ts`): the upload arrays are exactly the query results of
`getUnsyncedDeals()` / `getUnsyncedNotes()`. -/
def buildSyncRequest (st : ClientState) : SyncRequest :=
  { lastSync := st.lastSyncTime
    dealChanges := getUnsyncedDeals st.deals
    noteChanges := getUnsyncedNotes st.notes }

/-- One step of the deal loop in `applyServerUpdates` (`lib/api/sync.ts`):
overwrite when there is no local copy or the server copy is strictly newer
(`new Date(deal.updated_at) > new Date(existing.updated_at)`), writing it
with `synced: true`; otherwise leave the table untouched. -/
def mergeServerDeal (tbl : DealTable) (deal : Deal) : DealTable :=
  match getDeal tbl deal.id with
  | none => putDeal tbl { deal with synced := true }
  | some existing =>
    if existing.updated_at < deal.updated_at then
      putDeal tbl { deal with synced := true }
    else tbl

/-- One step of the note loop in `applyServerUpdates` (`lib/api/sync.ts`):
insert with `synced: true` only when no local copy with that id exists. -/
def mergeServerNote (tbl : NoteTable) (note : Note) : NoteTable :=
  match getNote tbl note.id with
  | none => putNote tbl { note with synced := true }
  | some _ => tbl

/-- `applyServerUpdates(updates)` from `lib/api/sync.ts`. -/
def applyServerUpdates (st : ClientState) (dealUpdates : List Deal)
    (noteUpdates : List Note) : ClientState :=
  { st with
    deals := dealUpdates.foldl mergeServerDeal st.deals
    notes := noteUpdates.foldl mergeServerNote st.notes }

/-- `performSync()` from `lib/api/sync.ts`.  The transport outcome is the
`resp` argument: `none` embeds a thrown `fetch` or a non-ok status (the
function throws before any local mutation); `some data` embeds a parsed
success response.  On success it applies the server updates, marks the
uploaded records synced and persists `lastSyncTime = serverTime`.  The
returned flag records whether the cycle completed. -/
def performSync (st : ClientState) (resp : Option SyncResponse) :
    ClientState × Bool :=
  let req := buildSyncRequest st
  match resp with
  | none => (st, false)
  | some data =>
    let st1 := applyServerUpdates st data.dealUpdates data.noteUpdates
    let st2 :=
      if req.dealChanges.length > 0 then
        { st1 with
          deals := markDealsSynced st1.deals (req.dealChanges.map fun d => d.id) }
      else st1
    let st3 :=
      if req.noteChanges.length > 0 then
        { st2 with
          notes := markNotesSynced st2.notes (req.noteChanges.map fun n => n.id) }
      else st2
    ({ st3 with lastSyncTime := some data.serverTime }, true)

/-- A row of the server's `deals` table (backend `api/lib/types.ts` plus the
v4 columns written by `api/sync.ts`). -/
structure DealRow where
  id : String
  name : String
  value : Int
  status : DealStatus
  loss_reason : Option String
  created_at : Nat
  updated_at : Nat
  archived : Bool
  expected_close_date : Option Nat
  customer_name : Option String
  stage : DealStage
deriving DecidableEq, Repr

/-- A row of the server's `notes` table. -/
structure NoteRow where
  id : String
  deal_id : String
  content : String
  sentiment_score : Option ℚ
  sentiment_label : Option SentimentLabel
  created_at : Nat
deriving DecidableEq, Repr

/-- The column mapping in `upsertDeals` (backend `api/sync.ts`):
`{ id: d.id, ..., archived: d.archived ?? false, stage: d.stage ?? 'prospect' }`. -/
def toDealRow (d : Deal) : DealRow :=
  { id := d.id
    name := d.name
    value := d.value
    status := d.status
    loss_reason := d.loss_reason
    created_at := d.created_at
    updated_at := d.updated_at
    archived := d.archived
    expected_close_date := d.expected_close_date
    customer_name := d.customer_name
    stage := d.stage }

/-- The column mapping in `insertNotes` (backend `api/sync.ts`). -/
def toNoteRow (n : Note) : NoteRow :=
  { id := n.id
    deal_id := n.deal_id
    content := n.content
    sentiment_score := n.sentiment_score
    sentiment_label := n.sentiment_label
    created_at := n.created_at }

/-- The effect of one row of the batch
`supabase.from('deals').upsert(rows, { onConflict: 'id', ignoreDuplicates: false })`
in `upsertDeals` (backend `api/sync.ts`): insert the row, or replace the
stored row with the same id unconditionally — the call performs no
`updated_at` comparison. -/
def upsertRow : List DealRow → DealRow → List DealRow
  | [], r => [r]
  | x :: xs, r => if x.id = r.id then r :: xs else x :: upsertRow xs r

/-- `upsertDeals(deals)` from backend `api/sync.ts`. -/
def upsertDeals (tbl : List DealRow) (deals : List Deal) : List DealRow :=
  (deals.map toDealRow).foldl upsertRow tbl

/-- The effect of one row of
`supabase.from('notes').upsert(rows, { onConflict: 'id', ignoreDuplicates: true })`
in `insertNotes` (backend `api/sync.ts`): insert only when no stored row has
that id; an id conflict leaves the stored row untouched. -/
def insertNoteRow (tbl : List NoteRow) (r : NoteRow) : List NoteRow :=
  if tbl.any (fun x => decide (x.id = r.id)) then tbl else tbl ++ [r]

/-- `insertNotes(notes)` from backend `api/sync.ts`. -/
def insertNotes (tbl : List NoteRow) (notes : List Note) : List NoteRow :=
  (notes.map toNoteRow).foldl insertNoteRow tbl

/-- `normalizeScore(score)` from backend `api/sentiment.ts`:
`parseFloat`, `0` when not a number, then clamp to `[-1, 1]`.
`none` embeds a value that fails to parse as a number. -/
def normalizeScore (score : Option ℚ) : ℚ :=
  match score with
  | none => 0
  | some x => max (-1) (min 1 x)

/-- `normalizeLabel(label, score)` from backend `api/sentiment.ts`: keep the
supplied label whenever it is one of the three valid strings; only otherwise
derive a label from the raw score by the fixed thresholds.  `none` for the
label embeds an absent or non-string value; `none` for the score embeds a
non-numeric value (JavaScript `NaN` comparisons are false, giving neutral). -/
def normalizeLabel (label : Option String) (score : Option ℚ) :
    SentimentLabel :=
  if label = some "positive" then .positive
  else if label = some "neutral" then .neutral
  else if label = some "negative" then .negative
  else
    match score with
    | none => .neutral
    | some x =>
      if x > 3/10 then .positive
      else if x < -(3/10) then .negative
      else .neutral

/-- Modelled from the spec: the label the specification demands be
recomputed from a score, "score > 0.3 → positive; score < -0.3 → negative;
else neutral".  Stated separately from `normalizeLabel` so that the code's
behaviour can be compared against the specification's words. -/
def specLabelFromScore (x : ℚ) : SentimentLabel :=
  if x > 3/10 then .positive
  else if x < -(3/10) then .negative
  else .neutral

/-- The `{score, label}` pair produced by the sentiment adapter. -/
structure SentimentResult where
  score : ℚ
  label : SentimentLabel
deriving DecidableEq, Repr

/-- The observable outcome of the `fetch('/api/sentiment')` call made by the
client adapter: the promise rejects (network error), or an HTTP response
arrives with an `ok` flag and a body that either parses as a result object
or is malformed JSON (`none`). -/
inductive FetchOutcome
  | networkError
  | response (ok : Bool) (body : Option SentimentResult)
deriving DecidableEq, Repr

/-- `analyzeSentiment(text)` from the frontend `lib/api/sentiment.ts`.  The
`try` block catches the `fetch` rejection and returns neutral, and returns
neutral on a non-ok status.  On an ok status the function returns
`response.json()` WITHOUT awaiting it inside the `try`, so a body that is
not valid JSON produces a rejected promise that escapes the `catch` and
propagates to the caller — embedded as `Except.error ()`. -/
def analyzeSentiment (outcome : FetchOutcome) : Except Unit SentimentResult :=
  match outcome with
  | .networkError => .ok ⟨0, .neutral⟩
  | .response ok body =>
    if ok then
      match body with
      | some r => .ok r
      | none => .error ()
    else .ok ⟨0, .neutral⟩

/-- A concrete open, dirty deal used to instantiate the theorems below. -/
def dealA : Deal :=
  { id := "deal-a"
    name := "Acme"
    value := 50000
    status := .open_
    loss_reason := none
    created_at := 0
    updated_at := 3
    synced := false
    archived := false
    expected_close_date := none
    customer_name := none
    stage := .prospect }

/-- A server copy of `dealA` with a strictly newer `updated_at`. -/
def serverDealB : Deal :=
  { dealA with name := "Acme (renamed)", value := 60000, updated_at := 10 }

/-- A stored server row with `updated_at = 10`. -/
def storedRow : DealRow :=
  { id := "deal-a"
    name := "Stored"
    value := 100
    status := .open_
    loss_reason := none
    created_at := 0
    updated_at := 10
    archived := false
    expected_close_date := none
    customer_name := none
    stage := .prospect }

/-- An incoming client deal with the same id as `storedRow` but a strictly
OLDER `updated_at = 5`. -/
def staleDeal : Deal :=
  { dealA with name := "Stale", value := 50, updated_at := 5 }

/-- A concrete note used to instantiate the note-sync theorems. -/
def noteA : Note :=
  { id := "note-a"
    deal_id := "deal-a"
    content := "Budget frozen"
    sentiment_score := some (-(1/2))
    sentiment_label := some .negative
    created_at := 4
    synced := false }

/-- Number of stored client notes carrying a given id. -/
def countNoteId (tbl : NoteTable) (i : String) : Nat :=
  (tbl.filter fun n => decide (n.id = i)).length

/-- Number of stored server note rows carrying a given id. -/
def countRowId (tbl : List NoteRow) (i : String) : Nat :=
  (tbl.filter fun r => decide (r.id = i)).length

/- ----------------------------------------------------------------- -/
/- Theorems.                                                          -/
/- ----------------------------------------------------------------- -/

theorem getDeal_putDeal_same (tbl : DealTable) (d : Deal) :
    getDeal (putDeal tbl d) d.id = some d := by
  induction tbl with
  | nil => simp [putDeal, getDeal]
  | cons x xs ih =>
    by_cases h : x.id = d.id
    · simp [putDeal, h, getDeal]
    · simp only [putDeal, if_neg h, getDeal, ih, if_neg h]

theorem getDeal_putDeal_other (tbl : DealTable) (d : Deal) (j : String)
    (hj : j ≠ d.id) : getDeal (putDeal tbl d) j = getDeal tbl j := by
  induction tbl with
  | nil => simp [putDeal, getDeal, Ne.symm hj]
  | cons x xs ih =>
    by_cases h : x.id = d.id
    · have hx : ¬x.id = j := by
        rw [h]
        exact Ne.symm hj
      simp [putDeal, h, getDeal, hx, Ne.symm hj]
    · simp only [putDeal, if_neg h, getDeal]
      by_cases hx : x.id = j
      · simp [hx]
      · simp [hx, ih]

theorem getNote_putNote_same (tbl : NoteTable) (n : Note) :
    getNote (putNote tbl n) n.id = some n := by
  induction tbl with
  | nil => simp [putNote, getNote]
  | cons x xs ih =>
    by_cases h : x.id = n.id
    · simp [putNote, h, getNote]
    · simp only [putNote, if_neg h, getNote, ih, if_neg h]

/-- C3: if the sync transmit fails (network error or non-success HTTP
status), `performSync` throws before any local mutation: the deal table,
the note table and the persisted watermark are all left exactly as they
were, and the cycle reports failure. -/
theorem performSync_failure_noop (st : ClientState) :
    (performSync st none).1.deals = st.deals ∧
    (performSync st none).1.notes = st.notes ∧
    (performSync st none).1.lastSyncTime = st.lastSyncTime ∧
    (performSync st none).2 = false :=
  ⟨rfl, rfl, rfl, rfl⟩

/-- C8: the claim is right and the code is wrong.  The frontend adapter
returns a neutral fallback when `fetch` rejects or the status is non-ok,
but on an ok status it returns `response.json()` without awaiting it inside
the `try`, so a malformed body (`FetchOutcome.response true none`) produces
a rejection that escapes the `catch` and propagates to the caller instead of
the claimed `{score: 0, label: 'neutral'}`. -/
theorem analyzeSentiment_malformed_body_rejects :
    analyzeSentiment (.response true none) = .error () ∧
    analyzeSentiment .networkError = .ok ⟨0, .neutral⟩ ∧
    analyzeSentiment (.response false none) = .ok ⟨0, .neutral⟩ :=
  ⟨rfl, rfl, rfl⟩

/-- C1: the claim is right and the code is wrong.  The server's
`upsertDeals` performs an unconditional batch upsert with
`ignoreDuplicates: false` and no `updated_at` comparison, so an incoming
deal whose `updated_at = 5` REPLACES a stored record with the same id and
strictly greater `updated_at = 10`, where the claim (and the code's own
"last-write-wins" comment and task document) requires the incoming write to
be discarded. -/
theorem upsertDeals_overwrites_stale :
    upsertDeals [storedRow] [staleDeal] = [toDealRow staleDeal] ∧
    (toDealRow staleDeal).updated_at < storedRow.updated_at := by
  constructor
  · rfl
  · decide

/-- C7 counterexample: the claim says `updateDeal` on a nonexistent id
"fails with a NotFound error surfaced synchronously".  Dexie's
`Table.update` never rejects for a missing key: the embedded call on a
store that does not contain `"missing-id"` COMPLETES, returning the store
unchanged together with an update count of `0` — there is no error to
surface. -/
theorem updateDeal_missing_id_no_error :
    updateDeal [dealA] "missing-id" markWonPatch 7 = ([dealA], 0) := by
  decide

/-- C7 amended: `updateDeal` called with an id for which no Deal exists is
a silent no-op — it completes without error, resolves with an update count
of `0` and leaves the Local Store unchanged. -/
theorem updateDeal_missing_id_noop (tbl : DealTable) (i : String)
    (p : DealPatch) (now : Nat) (h : getDeal tbl i = none) :
    updateDeal tbl i p now = (tbl, 0) := by
  simp [updateDeal, h]

theorem updateDeal_missing_id_noop_witness :
    updateDeal [dealA] "missing-id" restorePatch 7 = ([dealA], 0) :=
  updateDeal_missing_id_noop [dealA] "missing-id" restorePatch 7 (by decide)

/-- C2: in the client merge step, for each deal returned by the server: when
no local copy with that id exists, or the server copy's `updated_at` is
strictly greater, the local copy becomes the server copy with `synced = true`
(dirty = false) and every other id is untouched; when the local copy's
`updated_at` is greater or equal, the whole table is left unchanged. -/
theorem mergeServerDeal_lww (tbl : DealTable) (deal : Deal) :
    ((getDeal tbl deal.id = none ∨
        ∃ ex, getDeal tbl deal.id = some ex ∧ ex.updated_at < deal.updated_at) →
      getDeal (mergeServerDeal tbl deal) deal.id =
          some { deal with synced := true } ∧
        ∀ j, j ≠ deal.id → getDeal (mergeServerDeal tbl deal) j = getDeal tbl j) ∧
    (∀ ex, getDeal tbl deal.id = some ex → deal.updated_at ≤ ex.updated_at →
      mergeServerDeal tbl deal = tbl) := by
  constructor
  · rintro (h | ⟨ex, hex, hlt⟩)
    · constructor
      · simp only [mergeServerDeal, h]
        exact getDeal_putDeal_same tbl { deal with synced := true }
      · intro j hj
        simp only [mergeServerDeal, h]
        exact getDeal_putDeal_other tbl _ j hj
    · constructor
      · simp only [mergeServerDeal, hex, if_pos hlt]
        exact getDeal_putDeal_same tbl { deal with synced := true }
      · intro j hj
        simp only [mergeServerDeal, hex, if_pos hlt]
        exact getDeal_putDeal_other tbl _ j hj
  · intro ex hex hle
    simp only [mergeServerDeal, hex, if_neg (not_lt.mpr hle)]

theorem mergeServerDeal_lww_witness :
    getDeal (mergeServerDeal [dealA] serverDealB) serverDealB.id =
      some { serverDealB with synced := true } :=
  ((mergeServerDeal_lww [dealA] serverDealB).1
    (Or.inr ⟨dealA, by decide, by decide⟩)).1

/-- C4: the request body built at the start of `performSync` uploads exactly
the records whose dirty flag is set (`synced = false`) at that moment; when
every record is synced the upload arrays are empty, and the transmitted
watermark is the persisted one. -/
theorem syncRequest_exactly_dirty (st : ClientState) :
    (∀ d, d ∈ (buildSyncRequest st).dealChanges ↔
        d ∈ st.deals ∧ d.synced = false) ∧
    (∀ n, n ∈ (buildSyncRequest st).noteChanges ↔
        n ∈ st.notes ∧ n.synced = false) ∧
    ((∀ d ∈ st.deals, d.synced = true) →
        (buildSyncRequest st).dealChanges = []) ∧
    ((∀ n ∈ st.notes, n.synced = true) →
        (buildSyncRequest st).noteChanges = []) ∧
    (buildSyncRequest st).lastSync = st.lastSyncTime := by
  have hd : ∀ d, d ∈ (buildSyncRequest st).dealChanges ↔
      d ∈ st.deals ∧ d.synced = false := by
    intro d
    simp [buildSyncRequest, getUnsyncedDeals, List.mem_filter]
  have hn : ∀ n, n ∈ (buildSyncRequest st).noteChanges ↔
      n ∈ st.notes ∧ n.synced = false := by
    intro n
    simp [buildSyncRequest, getUnsyncedNotes, List.mem_filter]
  refine ⟨hd, hn, ?_, ?_, rfl⟩
  · intro h
    rw [List.eq_nil_iff_forall_not_mem]
    intro d hdm
    rcases (hd d).mp hdm with ⟨hmem, hsync⟩
    have htrue := h d hmem
    rw [htrue] at hsync
    cases hsync
  · intro h
    rw [List.eq_nil_iff_forall_not_mem]
    intro n hnm
    rcases (hn n).mp hnm with ⟨hmem, hsync⟩
    have htrue := h n hmem
    rw [htrue] at hsync
    cases hsync

theorem syncRequest_exactly_dirty_witness :
    (buildSyncRequest ⟨[{ dealA with synced := true }], [], some 2⟩).dealChanges
      = [] :=
  (syncRequest_exactly_dirty ⟨[{ dealA with synced := true }], [], some 2⟩).2.2.1
    (by decide)

/-- C6 counterexample: the adapter does NOT recompute a label that is
inconsistent with its score.  The external response
`{label: 'negative', score: 0.9}` is inconsistent (0.9 > 0.3 demands
`positive` under the claim's thresholds), yet `normalizeLabel` keeps
`'negative'` because the supplied string is one of the three valid labels. -/
theorem normalizeLabel_keeps_inconsistent_label :
    normalizeLabel (some "negative") (some (9/10)) = SentimentLabel.negative ∧
    specLabelFromScore (9/10) = SentimentLabel.positive := by
  constructor
  · rfl
  · norm_num [specLabelFromScore]

/-- C6 amended: the returned score is always clamped to `[-1, 1]`; a
supplied label that is one of `positive`/`neutral`/`negative` is kept
as-is even when inconsistent with the score; only when the supplied label
is none of those three is the label computed from the raw score by the
fixed thresholds (`> 0.3` positive, `< -0.3` negative, else neutral, with
a non-numeric score giving neutral). -/
theorem normalizeLabel_clamp_and_fallback (lab : Option String)
    (sc : Option ℚ) :
    (-1 ≤ normalizeScore sc ∧ normalizeScore sc ≤ 1) ∧
    (normalizeLabel (some "positive") sc = .positive ∧
      normalizeLabel (some "neutral") sc = .neutral ∧
      normalizeLabel (some "negative") sc = .negative) ∧
    (lab ≠ some "positive" → lab ≠ some "neutral" → lab ≠ some "negative" →
      normalizeLabel lab sc =
        match sc with
        | none => SentimentLabel.neutral
        | some x => specLabelFromScore x) := by
  refine ⟨⟨?_, ?_⟩,
    ⟨by simp [normalizeLabel], by simp [normalizeLabel], by simp [normalizeLabel]⟩,
    ?_⟩
  · cases sc with
    | none => norm_num [normalizeScore]
    | some x =>
      simp only [normalizeScore]
      exact le_max_left _ _
  · cases sc with
    | none => norm_num [normalizeScore]
    | some x =>
      simp only [normalizeScore]
      exact max_le (by norm_num) (min_le_left _ _)
  · intro h1 h2 h3
    simp only [normalizeLabel, if_neg h1, if_neg h2, if_neg h3]
    cases sc with
    | none => rfl
    | some x => simp only [specLabelFromScore]

theorem normalizeLabel_clamp_and_fallback_witness :
    normalizeLabel (some "bogus") (some (2/5)) = specLabelFromScore (2/5) :=
  (normalizeLabel_clamp_and_fallback (some "bogus") (some (2/5))).2.2
    (by decide) (by decide) (by decide)

/-- C5: every operation the application uses to mutate a Deal preserves the
invariant `loss_reason` non-null ⟺ `status = lost`.  Marking won and marking
lost are offered by the UI only while the deal is open (`DealDetail.tsx`,
`ActionMenu.tsx`, and the swipe hook is disabled unless open), which the
open-status hypothesis of the mark-won conjunct records; marking a deal lost
sets `status = lost` together with a non-null reason, and creating, editing,
archiving, restoring and stage changes never touch the pairing. -/
theorem deal_mutations_preserve_invariant (d : Deal) (now : Nat)
    (reason : String) (hinv : dealInvariant d) :
    (d.status = .open_ →
      dealInvariant (updateDealRecord d markWonPatch now) ∧
      (updateDealRecord d markWonPatch now).loss_reason = none ∧
      (updateDealRecord d markWonPatch now).status = .won) ∧
    (dealInvariant (updateDealRecord d (markLostPatch reason) now) ∧
      (updateDealRecord d (markLostPatch reason) now).status = .lost ∧
      (updateDealRecord d (markLostPatch reason) now).loss_reason
        = some reason) ∧
    dealInvariant (updateDealRecord d archivePatch now) ∧
    dealInvariant (updateDealRecord d restorePatch now) ∧
    (∀ s, dealInvariant (updateDealRecord d (stagePatch s) now)) ∧
    (∀ nm v c cd s,
      dealInvariant (updateDealRecord d (editPatch nm v c cd s) now)) ∧
    (∀ i nm v c cd s t, dealInvariant (addDeal i nm v c cd s t)) := by
  have hlr : d.status = DealStatus.open_ → d.loss_reason = none := by
    intro ho
    cases hl : d.loss_reason with
    | none => rfl
    | some r =>
      have hlost : d.status = DealStatus.lost := hinv.mp (by simp [hl])
      rw [ho] at hlost
      cases hlost
  refine ⟨?_, ?_, ?_, ?_, ?_, ?_, ?_⟩
  · intro ho
    have hn := hlr ho
    refine ⟨?_, ?_, ?_⟩ <;>
      simp [dealInvariant, updateDealRecord, applyPatch, markWonPatch, hn]
  · refine ⟨?_, ?_, ?_⟩ <;>
      simp [dealInvariant, updateDealRecord, applyPatch, markLostPatch]
  · simpa [dealInvariant, updateDealRecord, applyPatch, archivePatch]
      using hinv
  · simpa [dealInvariant, updateDealRecord, applyPatch, restorePatch]
      using hinv
  · intro s
    simpa [dealInvariant, updateDealRecord, applyPatch, stagePatch]
      using hinv
  · intro nm v c cd s
    simpa [dealInvariant, updateDealRecord, applyPatch, editPatch]
      using hinv
  · intro i nm v c cd s t
    simp [dealInvariant, addDeal]

theorem deal_mutations_preserve_invariant_witness :
    dealInvariant (updateDealRecord dealA markWonPatch 7) ∧
    (updateDealRecord dealA markWonPatch 7).loss_reason = none ∧
    (updateDealRecord dealA markWonPatch 7).status = DealStatus.won :=
  (deal_mutations_preserve_invariant dealA 7 "price" (by decide)).1 (by decide)

theorem countNoteId_of_getNote_none (tbl : NoteTable) (i : String)
    (h : getNote tbl i = none) : countNoteId tbl i = 0 := by
  induction tbl with
  | nil => rfl
  | cons x xs ih =>
    by_cases hx : x.id = i
    · simp [getNote, hx] at h
    · simp only [getNote, if_neg hx] at h
      simp [countNoteId, List.filter, hx] at ih ⊢
      exact ih h

theorem countNoteId_putNote (tbl : NoteTable) (n : Note)
    (h : getNote tbl n.id = none) :
    countNoteId (putNote tbl n) n.id = countNoteId tbl n.id + 1 := by
  induction tbl with
  | nil => simp [putNote, countNoteId, List.filter]
  | cons x xs ih =>
    by_cases hx : x.id = n.id
    · simp [getNote, hx] at h
    · simp only [getNote, if_neg hx] at h
      simp only [putNote, if_neg hx]
      simp [countNoteId, List.filter, hx] at ih ⊢
      exact ih h

theorem countRowId_append_self (tbl : List NoteRow) (r : NoteRow) :
    countRowId (tbl ++ [r]) r.id = countRowId tbl r.id + 1 := by
  simp [countRowId, List.filter_append, List.filter]

theorem countRowId_of_not_mem (tbl : List NoteRow) (i : String)
    (h : ∀ x ∈ tbl, x.id ≠ i) : countRowId tbl i = 0 := by
  simp only [countRowId, List.length_eq_zero]
  rw [List.filter_eq_nil_iff]
  intro x hx
  simp [h x hx]

/-- C9: applying the same Note twice is idempotent on both paths — the
client merge (`applyServerUpdates`) and the server insert (`insertNotes`
with `ignoreDuplicates: true`) — and when the note was not present before,
the double application leaves exactly one stored copy. -/
theorem note_sync_idempotent (ctbl : NoteTable) (stbl : List NoteRow)
    (note : Note) :
    mergeServerNote (mergeServerNote ctbl note) note
        = mergeServerNote ctbl note ∧
    insertNotes (insertNotes stbl [note]) [note] = insertNotes stbl [note] ∧
    (getNote ctbl note.id = none →
      countNoteId (mergeServerNote (mergeServerNote ctbl note) note) note.id
        = 1) ∧
    ((∀ x ∈ stbl, x.id ≠ note.id) →
      countRowId (insertNotes (insertNotes stbl [note]) [note]) note.id
        = 1) := by
  have hclient : mergeServerNote (mergeServerNote ctbl note) note
      = mergeServerNote ctbl note := by
    cases hg : getNote ctbl note.id with
    | none =>
      simp only [mergeServerNote, hg]
      have hsame := getNote_putNote_same ctbl { note with synced := true }
      simp only [mergeServerNote, hsame]
    | some x =>
      simp only [mergeServerNote, hg]
  have hserver : insertNotes (insertNotes stbl [note]) [note]
      = insertNotes stbl [note] := by
    simp only [insertNotes, List.map_cons, List.map_nil, List.foldl_cons,
      List.foldl_nil]
    by_cases ha : stbl.any (fun x => decide (x.id = (toNoteRow note).id)) = true
    · simp [insertNoteRow, ha]
    · simp only [insertNoteRow, ha, if_neg, Bool.not_eq_true] at *
      have : ((stbl ++ [toNoteRow note]).any
          fun x => decide (x.id = (toNoteRow note).id)) = true := by
        simp [List.any_append]
      simp [insertNoteRow, ha, this]
  refine ⟨hclient, hserver, ?_, ?_⟩
  · intro hg
    rw [hclient]
    simp only [mergeServerNote, hg]
    have := countNoteId_putNote ctbl { note with synced := true } hg
    rw [this, countNoteId_of_getNote_none ctbl note.id hg]
  · intro hmem
    rw [hserver]
    simp only [insertNotes, List.map_cons, List.map_nil, List.foldl_cons,
      List.foldl_nil]
    have ha : (stbl.any fun x => decide (x.id = (toNoteRow note).id)) = false := by
      rw [Bool.eq_false_iff]
      intro hc
      rcases List.any_eq_true.mp hc with ⟨x, hx, hxe⟩
      exact hmem x hx (of_decide_eq_true hxe)
    rw [insertNoteRow, ha]
    simp only [Bool.false_eq_true, if_neg, ite_false]
    show countRowId (stbl ++ [toNoteRow note]) (toNoteRow note).id = 1
    rw [countRowId_append_self]
    have h0 : countRowId stbl (toNoteRow note).id = 0 :=
      countRowId_of_not_mem stbl (toNoteRow note).id hmem
    rw [h0]

theorem note_sync_idempotent_witness :
    countNoteId (mergeServerNote (mergeServerNote [] noteA) noteA) noteA.id
      = 1 :=
  (note_sync_idempotent [] [] noteA).2.2.1 rfl

/-- C10: clearing dirty flags after a successful upload modifies only the
`synced` flag of the listed records: the two tables keep their length and
order, every field other than `synced` (including `updated_at`) of every
record is unchanged, and a record whose id is not listed is unchanged
entirely. -/
theorem markSynced_frame (tblD : DealTable) (tblN : NoteTable)
    (ids jds : List String) :
    List.Forall₂ (fun d d' =>
      d'.id = d.id ∧ d'.name = d.name ∧ d'.value = d.value ∧
      d'.status = d.status ∧ d'.loss_reason = d.loss_reason ∧
      d'.created_at = d.created_at ∧ d'.updated_at = d.updated_at ∧
      d'.archived = d.archived ∧
      d'.expected_close_date = d.expected_close_date ∧
      d'.customer_name = d.customer_name ∧ d'.stage = d.stage ∧
      d'.synced = (if ids.contains d.id then true else d.synced) ∧
      (ids.contains d.id = false → d' = d))
      tblD (markDealsSynced tblD ids) ∧
    List.Forall₂ (fun n n' =>
      n'.id = n.id ∧ n'.deal_id = n.deal_id ∧ n'.content = n.content ∧
      n'.sentiment_score = n.sentiment_score ∧
      n'.sentiment_label = n.sentiment_label ∧
      n'.created_at = n.created_at ∧
      n'.synced = (if jds.contains n.id then true else n.synced) ∧
      (jds.contains n.id = false → n' = n))
      tblN (markNotesSynced tblN jds) := by
  constructor
  · rw [markDealsSynced, List.forall₂_map_right_iff, List.forall₂_same]
    intro d _
    cases h : ids.contains d.id with
    | false => simp [h]
    | true => simp [h]
  · rw [markNotesSynced, List.forall₂_map_right_iff, List.forall₂_same]
    intro n _
    cases h : jds.contains n.id with
    | false => simp [h]
    | true => simp [h]

end SalesSync
